import Mathlib

/-!
Shallow embedding of arch/powerpc/kernel/power8-pmu.c (POWER8 performance
counter support): event field extraction, constraint generation
(power8_get_constraint), MMCR synthesis (power8_compute_mmcr), the
alternatives resolver (power8_get_alternatives) and the disable hook
(power8_disable_pmc).  Machine integers (u64, unsigned long, unsigned int)
are modelled as Nat; every operation of the C code reads its operands
through explicit masks, so the embedding agrees with the C semantics on
all inputs below 2 ^ 64.
-/

/-! ## Event descriptor field layout (the EVENT_* macros) -/

def EVENT_THR_CMP_SHIFT : Nat := 40
def EVENT_THR_CMP_MASK : Nat := 0x3ff
def EVENT_THR_CTL_SHIFT : Nat := 32
def EVENT_THR_CTL_MASK : Nat := 0xff
def EVENT_THR_SEL_SHIFT : Nat := 29
def EVENT_THR_SEL_MASK : Nat := 0x7
def EVENT_THRESH_SHIFT : Nat := 29
def EVENT_THRESH_MASK : Nat := 0x1fffff
def EVENT_SAMPLE_SHIFT : Nat := 24
def EVENT_SAMPLE_MASK : Nat := 0x1f
def EVENT_CACHE_SEL_SHIFT : Nat := 20
def EVENT_CACHE_SEL_MASK : Nat := 0xf
def EVENT_IS_L1 : Nat := 4 <<< EVENT_CACHE_SEL_SHIFT
def EVENT_PMC_SHIFT : Nat := 16
def EVENT_PMC_MASK : Nat := 0xf
def EVENT_UNIT_SHIFT : Nat := 12
def EVENT_UNIT_MASK : Nat := 0xf
def EVENT_COMBINE_SHIFT : Nat := 11
def EVENT_COMBINE_MASK : Nat := 0x1
def EVENT_MARKED_SHIFT : Nat := 8
def EVENT_MARKED_MASK : Nat := 0x1
def EVENT_IS_MARKED : Nat := EVENT_MARKED_MASK <<< EVENT_MARKED_SHIFT
def EVENT_PSEL_MASK : Nat := 0xff

/-- Bitfield codec: extract a field, `(word >> shift) & mask`. -/
def evField (word shift mask : Nat) : Nat := (word >>> shift) &&& mask

def pmcOf (e : Nat) : Nat := evField e EVENT_PMC_SHIFT EVENT_PMC_MASK
def unitOf (e : Nat) : Nat := evField e EVENT_UNIT_SHIFT EVENT_UNIT_MASK
def cacheOf (e : Nat) : Nat := evField e EVENT_CACHE_SEL_SHIFT EVENT_CACHE_SEL_MASK
def cmpOf (e : Nat) : Nat := evField e EVENT_THR_CMP_SHIFT EVENT_THR_CMP_MASK
def expOf (e : Nat) : Nat := cmpOf e >>> 7

/-! ## Constraint layout (the CNST_* macros) -/

def CNST_FAB_MATCH_VAL (v : Nat) : Nat := (v &&& EVENT_THR_CTL_MASK) <<< 56
def CNST_FAB_MATCH_MASK : Nat := CNST_FAB_MATCH_VAL EVENT_THR_CTL_MASK
def CNST_THRESH_VAL (v : Nat) : Nat := (v &&& EVENT_THRESH_MASK) <<< 32
def CNST_THRESH_MASK : Nat := CNST_THRESH_VAL EVENT_THRESH_MASK
def CNST_L1_QUAL_VAL (v : Nat) : Nat := (v &&& 3) <<< 22
def CNST_L1_QUAL_MASK : Nat := CNST_L1_QUAL_VAL 3
def CNST_SAMPLE_VAL (v : Nat) : Nat := (v &&& EVENT_SAMPLE_MASK) <<< 16
def CNST_SAMPLE_MASK : Nat := CNST_SAMPLE_VAL EVENT_SAMPLE_MASK
def CNST_NC_SHIFT : Nat := 12
def CNST_NC_VAL : Nat := 1 <<< CNST_NC_SHIFT
def CNST_NC_MASK : Nat := 8 <<< CNST_NC_SHIFT
def POWER8_TEST_ADDER : Nat := 3 <<< CNST_NC_SHIFT
def CNST_PMC_SHIFT (pmc : Nat) : Nat := (pmc - 1) * 2
def CNST_PMC_VAL (pmc : Nat) : Nat := 1 <<< CNST_PMC_SHIFT pmc
def CNST_PMC_MASK (pmc : Nat) : Nat := 2 <<< CNST_PMC_SHIFT pmc

/-! ## MMCR bit positions -/

def MMCR1_UNIT_SHIFT (pmc : Nat) : Nat := 60 - 4 * (pmc - 1)
def MMCR1_COMBINE_SHIFT (pmc : Nat) : Nat := 35 - (pmc - 1)
def MMCR1_PMCSEL_SHIFT (pmc : Nat) : Nat := 24 - (pmc - 1) * 8
def MMCR1_DC_QUAL_SHIFT : Nat := 47
def MMCR1_IC_QUAL_SHIFT : Nat := 46
def MMCRA_SAMP_MODE_SHIFT : Nat := 1
def MMCRA_SAMP_ELIG_SHIFT : Nat := 4
def MMCRA_THR_CTL_SHIFT : Nat := 8
def MMCRA_THR_SEL_SHIFT : Nat := 16
def MMCRA_THR_CMP_SHIFT : Nat := 32
def MMCRA_SDAR_MODE_TLB : Nat := 1 <<< 42

/-- Modelled from the spec: the first fixed freeze-enable bit of the primary
control word (kernel header constant MMCR0_PMC1CE, outside this source
file). -/
def MMCR0_PMC1CE : Nat := 0x8000

/-- Modelled from the spec: the second fixed freeze-enable bit of the primary
control word (kernel header constant MMCR0_PMCjCE, outside this source
file). -/
def MMCR0_PMCjCE : Nat := 0x4000

/-- Modelled from the spec: the sampling-enable bit of the threshold/sampling
word (kernel header constant MMCRA_SAMPLE_ENABLE, outside this source
file). -/
def MMCRA_SAMPLE_ENABLE : Nat := 1

/-- event_is_fab_match: mask the event to its pmc, unit and non-edge pmcxsel
bits and compare with the two reserved constants. -/
def event_is_fab_match (event : Nat) : Bool :=
  (event &&& 0xff0fe) == 0x30056 || (event &&& 0xff0fe) == 0x4f052

/-- The (mask, value) contributions of power8_get_constraint accumulated
before the fab-match / threshold split: PMC pinning, counters-in-use (NC),
L1 qualifier and marked-sample fields.  Rejection tests are hoisted into
power8_get_constraint itself; a rejected event discards these bits. -/
def cnstBaseMask (e : Nat) : Nat :=
  (if pmcOf e ≠ 0 then CNST_PMC_MASK (pmcOf e) else 0)
  ||| (if pmcOf e ≤ 4 then CNST_NC_MASK else 0)
  ||| (if ¬(6 ≤ unitOf e ∧ unitOf e ≤ 9) ∧ e &&& EVENT_IS_L1 ≠ 0 then
        CNST_L1_QUAL_MASK else 0)
  ||| (if e &&& EVENT_IS_MARKED ≠ 0 then CNST_SAMPLE_MASK else 0)

def cnstBaseVal (e : Nat) : Nat :=
  (if pmcOf e ≠ 0 then CNST_PMC_VAL (pmcOf e) else 0)
  ||| (if pmcOf e ≤ 4 then CNST_NC_VAL else 0)
  ||| (if ¬(6 ≤ unitOf e ∧ unitOf e ≤ 9) ∧ e &&& EVENT_IS_L1 ≠ 0 then
        CNST_L1_QUAL_VAL (cacheOf e) else 0)
  ||| (if e &&& EVENT_IS_MARKED ≠ 0 then CNST_SAMPLE_VAL (e >>> EVENT_SAMPLE_SHIFT) else 0)

/-- power8_get_constraint.  Returns none for the -1 of the C code (rejection)
and some (mask, value) for success.  The rejection conditions appear in the
order the C code tests them; the (mask, value) accumulation is factored
into cnstBaseMask / cnstBaseVal, whose contributions are ORed exactly as in
the C code. -/
def power8_get_constraint (event : Nat) : Option (Nat × Nat) :=
  if pmcOf event ≠ 0 ∧ 6 < pmcOf event then none
  else if pmcOf event ≠ 0 ∧ 5 ≤ pmcOf event ∧ event ≠ 0x500fa ∧ event ≠ 0x600f4 then none
  else if 6 ≤ unitOf event ∧ unitOf event ≤ 9 ∧ cacheOf event ≠ 0 then none
  else if event_is_fab_match event then
    some (cnstBaseMask event ||| CNST_FAB_MATCH_MASK,
          cnstBaseVal event ||| CNST_FAB_MATCH_VAL (event >>> EVENT_THR_CTL_SHIFT))
  else if expOf event ≠ 0 ∧ cmpOf event &&& 0x60 = 0 then none
  else
    some (cnstBaseMask event ||| CNST_THRESH_MASK,
          cnstBaseVal event ||| CNST_THRESH_VAL (event >>> EVENT_THRESH_SHIFT))

/-! ## power8_compute_mmcr -/

/-- Loop state of the second pass of power8_compute_mmcr, plus the
accumulated hwc slot assignments. -/
structure MMCRState where
  pmc_inuse : Nat
  mmcr1 : Nat
  mmcra : Nat
  hwc : List Nat
deriving Repr, DecidableEq

/-- First pass: collect explicitly pinned counters into the in-use bitset. -/
def mmcrPass1 (events : List Nat) : Nat :=
  events.foldl (fun acc e => if pmcOf e ≠ 0 then acc ||| (1 <<< pmcOf e) else acc) 0

/-- The free-slot scan of the second pass: the first pmc in 1..4 whose bit is
clear in the in-use set, or 5 when all four are taken. -/
def assignPmc (inuse : Nat) : Nat :=
  if inuse &&& (1 <<< 1) = 0 then 1
  else if inuse &&& (1 <<< 2) = 0 then 2
  else if inuse &&& (1 <<< 3) = 0 then 3
  else if inuse &&& (1 <<< 4) = 0 then 4
  else 5

/-- Body of the second pass of power8_compute_mmcr for one event. -/
def mmcrStep (s : MMCRState) (e : Nat) : MMCRState :=
  let pmc0 := pmcOf e
  let unit := unitOf e
  let combine := evField e EVENT_COMBINE_SHIFT EVENT_COMBINE_MASK
  let psel := e &&& EVENT_PSEL_MASK
  let pmc := if pmc0 = 0 then assignPmc s.pmc_inuse else pmc0
  let inuse := if pmc0 = 0 then s.pmc_inuse ||| (1 <<< pmc) else s.pmc_inuse
  let mmcr1a :=
    if pmc ≤ 4 then
      s.mmcr1 ||| (unit <<< MMCR1_UNIT_SHIFT pmc)
              ||| (combine <<< MMCR1_COMBINE_SHIFT pmc)
              ||| (psel <<< MMCR1_PMCSEL_SHIFT pmc)
    else s.mmcr1
  let mmcr1b :=
    if e &&& EVENT_IS_L1 ≠ 0 then
      let cache := e >>> EVENT_CACHE_SEL_SHIFT
      mmcr1a ||| ((cache &&& 1) <<< MMCR1_IC_QUAL_SHIFT)
             ||| (((cache >>> 1) &&& 1) <<< MMCR1_DC_QUAL_SHIFT)
    else mmcr1a
  let mmcraA :=
    if e &&& EVENT_IS_MARKED ≠ 0 then
      let m := s.mmcra ||| MMCRA_SAMPLE_ENABLE
      let val := evField e EVENT_SAMPLE_SHIFT EVENT_SAMPLE_MASK
      if val ≠ 0 then
        m ||| ((val &&& 3) <<< MMCRA_SAMP_MODE_SHIFT)
          ||| ((val >>> 2) <<< MMCRA_SAMP_ELIG_SHIFT)
      else m
    else s.mmcra
  if event_is_fab_match e then
    { pmc_inuse := inuse
      mmcr1 := mmcr1b ||| ((e >>> EVENT_THR_CTL_SHIFT) &&& EVENT_THR_CTL_MASK)
      mmcra := mmcraA
      hwc := s.hwc ++ [pmc - 1] }
  else
    { pmc_inuse := inuse
      mmcr1 := mmcr1b
      mmcra := mmcraA
            ||| (((e >>> EVENT_THR_CTL_SHIFT) &&& EVENT_THR_CTL_MASK) <<< MMCRA_THR_CTL_SHIFT)
            ||| (((e >>> EVENT_THR_SEL_SHIFT) &&& EVENT_THR_SEL_MASK) <<< MMCRA_THR_SEL_SHIFT)
            ||| (((e >>> EVENT_THR_CMP_SHIFT) &&& EVENT_THR_CMP_MASK) <<< MMCRA_THR_CMP_SHIFT)
      hwc := s.hwc ++ [pmc - 1] }

/-- Result of power8_compute_mmcr: the hwc slot array, the three control
words, the final in-use bitset and the C return value (always 0). -/
structure MMCRResult where
  hwc : List Nat
  mmcr0 : Nat
  mmcr1 : Nat
  mmcra : Nat
  pmc_inuse : Nat
  ret : Nat
deriving Repr, DecidableEq

def power8_compute_mmcr (events : List Nat) : MMCRResult :=
  let s := events.foldl mmcrStep
    { pmc_inuse := mmcrPass1 events, mmcr1 := 0, mmcra := MMCRA_SDAR_MODE_TLB, hwc := [] }
  let mmcr0a := if s.pmc_inuse &&& 2 ≠ 0 then MMCR0_PMC1CE else 0
  let mmcr0b := if s.pmc_inuse &&& 0x7c ≠ 0 then mmcr0a ||| MMCR0_PMCjCE else mmcr0a
  { hwc := s.hwc, mmcr0 := mmcr0b, mmcr1 := s.mmcr1, mmcra := s.mmcra,
    pmc_inuse := s.pmc_inuse, ret := 0 }

/-! ## power8_get_alternatives -/

/-- The static alternatives table, sorted by first column. -/
def event_alternatives : List (Nat × Nat) :=
  [ (0x10134, 0x301e2), (0x10138, 0x40138), (0x18082, 0x3e05e),
    (0x1d14e, 0x401e8), (0x1e054, 0x4000a), (0x20036, 0x40036),
    (0x200f2, 0x300f2), (0x200f4, 0x600f4), (0x2013c, 0x3012e),
    (0x3e054, 0x400f0), (0x400fa, 0x500fa) ]

/-- find_alternative: scan the sorted table, stopping once a row key exceeds
the event; inside a row, entries are inspected left to right until a zero
entry.  Returns the matching row instead of the C row index. -/
def findAlternativeIn (event : Nat) : List (Nat × Nat) → Option (Nat × Nat)
  | [] => none
  | (a, b) :: rest =>
    if event < a then none
    else if a ≠ 0 ∧ event = a then some (a, b)
    else if a ≠ 0 ∧ b ≠ 0 ∧ event = b then some (a, b)
    else findAlternativeIn event rest

def find_alternative (event : Nat) : Option (Nat × Nat) :=
  findAlternativeIn event event_alternatives

/-- The PPMU_ONLY_COUNT_RUN substitution of power8_get_alternatives: the
interchangeable total/run cycle and instruction count codes. -/
def runSubst (e : Nat) : Option Nat :=
  if e = 0x1e then some 0x600f4
  else if e = 0x600f4 then some 0x1e
  else if e = 0x2 then some 0x500fa
  else if e = 0x500fa then some 0x2
  else none

/-- power8_get_alternatives.  The flags argument is modelled by the Boolean
only_count_run, the truth of flags & PPMU_ONLY_COUNT_RUN. -/
def power8_get_alternatives (event : Nat) (only_count_run : Bool) : List Nat :=
  let alts :=
    match find_alternative event with
    | some (a, b) =>
      [event] ++ (if a ≠ 0 ∧ a ≠ event then [a] else [])
              ++ (if b ≠ 0 ∧ b ≠ event then [b] else [])
    | none => [event]
  if only_count_run then alts ++ alts.filterMap runSubst else alts

/-! ## power8_disable_pmc -/

/-- power8_disable_pmc acting on the auxiliary control word mmcr[1]; the C
complement ~(0xffUL << shift) is the 64-bit all-ones word XOR the field
mask. -/
def power8_disable_pmc (pmc : Nat) (mmcr1 : Nat) : Nat :=
  if pmc ≤ 3 then
    mmcr1 &&& ((2 ^ 64 - 1) ^^^ (0xff <<< MMCR1_PMCSEL_SHIFT (pmc + 1)))
  else mmcr1

/-- Capability descriptor constants of power8_pmu. -/
def power8_n_counter : Nat := 6
def MAX_ALT : Nat := 2
def power8_max_alternatives : Nat := MAX_ALT + 1

/-! ## Bitwise toolkit -/

lemma shl_and_of_le {j k : Nat} (a m : Nat) (hjk : j ≤ k) (hm : m < 2 ^ j) :
    (a <<< k) &&& m = 0 := by
  apply Nat.eq_of_testBit_eq
  intro i
  simp only [Nat.testBit_and, Nat.zero_testBit]
  rcases lt_or_ge i k with hik | hik
  · simp [Nat.testBit_shiftLeft, Nat.not_le.mpr hik]
  · have h2 : m.testBit i = false :=
      Nat.testBit_lt_two_pow
        (lt_of_lt_of_le hm (Nat.pow_le_pow_right (by norm_num) (le_trans hjk hik)))
    simp [h2]

lemma and_shl_of_le {j k : Nat} (a m : Nat) (hjk : j ≤ k) (hm : m < 2 ^ j) :
    m &&& (a <<< k) = 0 := by
  rw [Nat.and_comm]; exact shl_and_of_le a m hjk hm

lemma shl_and_shl (a b k : Nat) : (a <<< k) &&& (b <<< k) = (a &&& b) <<< k := by
  apply Nat.eq_of_testBit_eq
  intro i
  simp only [Nat.testBit_and, Nat.testBit_shiftLeft]
  by_cases h : k ≤ i <;> simp [h, ge_iff_le]

lemma lor_eq_zero_iff (x y : Nat) : x ||| y = 0 ↔ (x = 0 ∧ y = 0) := by
  constructor
  · intro h
    constructor <;> apply Nat.eq_of_testBit_eq <;> intro i <;>
      have hi := congrArg (Nat.testBit · i) h <;>
      simp only [Nat.testBit_or, Nat.zero_testBit, Bool.or_eq_false_iff] at hi <;>
      simp [hi.1, hi.2]
  · rintro ⟨rfl, rfl⟩
    rfl

lemma and_ne_zero_iff_testBit (n i : Nat) : n &&& (1 <<< i) ≠ 0 ↔ n.testBit i = true := by
  rw [Nat.one_shiftLeft]
  constructor
  · intro h
    by_contra hb
    rw [Bool.not_eq_true] at hb
    apply h
    apply Nat.eq_of_testBit_eq
    intro j
    simp only [Nat.testBit_and, Nat.zero_testBit]
    by_cases hij : j = i
    · subst hij; simp [hb]
    · simp [Nat.testBit_two_pow_of_ne (Ne.symm hij)]
  · intro h hz
    have hi := congrArg (Nat.testBit · i) hz
    simp [Nat.testBit_and, h, Nat.testBit_two_pow_self] at hi

/-! ## Counterexamples to the claims that fail on the code -/

/-- C1 counterexample: the one-event group [0x500fa] (the sole legal event of
counter 5) gets the second freeze-enable bit set in mmcr[0], although none of
slots 2, 3, 4 is in use: the code keys that bit to slots 2..6 (mask 0x7c),
not to slots 2..4. -/
theorem C1_counterexample :
    (power8_compute_mmcr [0x500fa]).mmcr0 &&& MMCR0_PMCjCE ≠ 0 ∧
    (power8_compute_mmcr [0x500fa]).pmc_inuse.testBit 2 = false ∧
    (power8_compute_mmcr [0x500fa]).pmc_inuse.testBit 3 = false ∧
    (power8_compute_mmcr [0x500fa]).pmc_inuse.testBit 4 = false := by decide

/-- C2 counterexample: event 0x30156 (the fab-match pattern 0x30056 with the
marked bit added) is treated as a fabric-match event by the code, yet the
event with only its edge-trigger bit masked off, 0x30156 &&& (2 ^ 64 - 2),
equals neither reserved constant: the code masks with 0xff0fe, clearing far
more than the edge bit. -/
theorem C2_counterexample :
    event_is_fab_match 0x30156 = true ∧
    power8_get_constraint 0x30156 = some (0xff000000001f8020, 0x1010) ∧
    (0xff000000001f8020 : Nat) &&& CNST_FAB_MATCH_MASK = CNST_FAB_MATCH_MASK ∧
    (0xff000000001f8020 : Nat) &&& CNST_THRESH_MASK = 0 ∧
    (0x30156 : Nat) &&& (2 ^ 64 - 2) ≠ 0x30056 ∧
    (0x30156 : Nat) &&& (2 ^ 64 - 2) ≠ 0x4f052 := by decide

/-- C3 counterexample: event 0x501fa is pinned to counter 5 and its selector
code is 0xfa, the very code reserved for counter 5, yet the constraint
generator rejects it: the legality test compares the whole event code with
0x500fa, not the selector field alone. -/
theorem C3_counterexample :
    pmcOf 0x501fa = 5 ∧ (0x501fa : Nat) &&& EVENT_PSEL_MASK = 0xfa ∧
    power8_get_constraint 0x501fa = none := by decide

/-- C4 counterexample: for input 4 — one-based slot 4, inside the first four
slots — with auxiliary word 0xff, the claim demands that the 8-bit selector
sub-field of slot 4 (bits 0..7) be cleared, giving 0; the hook instead
leaves the word untouched, because its input is a zero-based index and 4
falls in its no-op range. -/
theorem C4_counterexample :
    power8_disable_pmc 4 0xff = 0xff ∧
    (0xff : Nat) &&& (0xff <<< MMCR1_PMCSEL_SHIFT 4) = 0xff := by decide

/-- C5 counterexample: event 0x800000016000 has unit 6 (the reserved cache
sub-range), cache sub-selector 0 and a legal counter pin, yet the constraint
generator rejects it, because its threshold-compare field is a denormal
encoding: rejection is not equivalent to a non-zero cache sub-selector. -/
theorem C5_counterexample :
    pmcOf 0x800000016000 = 1 ∧ unitOf 0x800000016000 = 6 ∧
    cacheOf 0x800000016000 = 0 ∧
    power8_get_constraint 0x800000016000 = none := by decide

/-- C10 counterexample: five events with counter-pin 0 are more than the four
free slots among counters 1..4, and the fifth is indeed assigned zero-based
slot 4 with no error, but the five output slots [0, 1, 2, 3, 4] are pairwise
distinct: the claimed consequence that at least two events share a slot is
false for this input. -/
theorem C10_counterexample :
    (power8_compute_mmcr [0, 0, 0, 0, 0]).hwc = [0, 1, 2, 3, 4] ∧
    (power8_compute_mmcr [0, 0, 0, 0, 0]).hwc.Nodup ∧
    (power8_compute_mmcr [0, 0, 0, 0, 0]).ret = 0 := by decide

/-! ## C4: the disable hook -/

lemma disable_frame (w F : Nat) (hw : w < 2 ^ 64)
    (hCF : ((2 ^ 64 - 1) ^^^ F) &&& F = 0)
    (hCoF : ((2 ^ 64 - 1) ^^^ F) ||| F = 2 ^ 64 - 1) :
    (w &&& ((2 ^ 64 - 1) ^^^ F)) &&& F = 0 ∧
    (w &&& ((2 ^ 64 - 1) ^^^ F)) ||| (w &&& F) = w := by
  constructor
  · rw [Nat.and_assoc, hCF, Nat.and_zero]
  · rw [← Nat.and_or_distrib_left, hCoF, Nat.and_pow_two_sub_one_eq_mod,
        Nat.mod_eq_of_lt hw]

/-- C4 (amended): the hook interprets its input as a zero-based slot index.
For p ≤ 3 it clears exactly the 8-bit selector sub-field of one-based slot
p + 1 of the auxiliary word and leaves every other bit unchanged; for p ≥ 4
it is a no-op. -/
theorem C4_disable_pmc (p w : Nat) (hw : w < 2 ^ 64) :
    (4 ≤ p → power8_disable_pmc p w = w) ∧
    (p ≤ 3 →
      power8_disable_pmc p w &&& (0xff <<< MMCR1_PMCSEL_SHIFT (p + 1)) = 0 ∧
      power8_disable_pmc p w ||| (w &&& (0xff <<< MMCR1_PMCSEL_SHIFT (p + 1))) = w) := by
  constructor
  · intro h4
    have : ¬ p ≤ 3 := by omega
    simp [power8_disable_pmc, this]
  · intro h3
    have hd : power8_disable_pmc p w
        = w &&& ((2 ^ 64 - 1) ^^^ (0xff <<< MMCR1_PMCSEL_SHIFT (p + 1))) := by
      simp [power8_disable_pmc, h3]
    rw [hd]
    interval_cases p
    · exact disable_frame w _ hw (by decide) (by decide)
    · exact disable_frame w _ hw (by decide) (by decide)
    · exact disable_frame w _ hw (by decide) (by decide)
    · exact disable_frame w _ hw (by decide) (by decide)

/-- Witness for C4: the hook at zero-based index 0 on the word 0xffffffff
clears the selector field of one-based slot 1 (bits 24..31) and preserves
the rest. -/
theorem C4_witness :
    power8_disable_pmc 0 0xffffffff &&& (0xff <<< MMCR1_PMCSEL_SHIFT 1) = 0 ∧
    power8_disable_pmc 0 0xffffffff
      ||| (0xffffffff &&& (0xff <<< MMCR1_PMCSEL_SHIFT 1)) = 0xffffffff :=
  (C4_disable_pmc 0 0xffffffff (by norm_num)).2 (by norm_num)

/-! ## C1: the mmcr[0] freeze-enable bits -/

lemma and_0x7c_ne_zero (n : Nat) :
    n &&& 0x7c ≠ 0 ↔ ∃ p, 2 ≤ p ∧ p ≤ 6 ∧ n.testBit p = true := by
  have h : (0x7c : Nat)
      = (1 <<< 2) ||| ((1 <<< 3) ||| ((1 <<< 4) ||| ((1 <<< 5) ||| (1 <<< 6)))) := by decide
  rw [h, Nat.and_or_distrib_left, Nat.and_or_distrib_left, Nat.and_or_distrib_left,
      Nat.and_or_distrib_left]
  constructor
  · intro hne
    by_contra hex
    push_neg at hex
    have z : ∀ q, 2 ≤ q → q ≤ 6 → n &&& (1 <<< q) = 0 := by
      intro q hq1 hq2
      by_contra hz
      exact hex q hq1 hq2 ((and_ne_zero_iff_testBit n q).mp hz)
    rw [z 2 (by norm_num) (by norm_num), z 3 (by norm_num) (by norm_num),
        z 4 (by norm_num) (by norm_num), z 5 (by norm_num) (by norm_num),
        z 6 (by norm_num) (by norm_num)] at hne
    exact hne rfl
  · rintro ⟨p, hp2, hp6, htb⟩ hz
    rw [lor_eq_zero_iff, lor_eq_zero_iff, lor_eq_zero_iff, lor_eq_zero_iff] at hz
    obtain ⟨z2, z3, z4, z5, z6⟩ := hz
    interval_cases p
    · exact (and_ne_zero_iff_testBit n 2).mpr htb z2
    · exact (and_ne_zero_iff_testBit n 3).mpr htb z3
    · exact (and_ne_zero_iff_testBit n 4).mpr htb z4
    · exact (and_ne_zero_iff_testBit n 5).mpr htb z5
    · exact (and_ne_zero_iff_testBit n 6).mpr htb z6

lemma mmcr0_of_inuse (n : Nat) :
    ((if n &&& 0x7c ≠ 0 then (if n &&& 2 ≠ 0 then MMCR0_PMC1CE else 0) ||| MMCR0_PMCjCE
        else (if n &&& 2 ≠ 0 then MMCR0_PMC1CE else 0)) &&& MMCR0_PMC1CE ≠ 0
      ↔ n.testBit 1 = true) ∧
    ((if n &&& 0x7c ≠ 0 then (if n &&& 2 ≠ 0 then MMCR0_PMC1CE else 0) ||| MMCR0_PMCjCE
        else (if n &&& 2 ≠ 0 then MMCR0_PMC1CE else 0)) &&& MMCR0_PMCjCE ≠ 0
      ↔ ∃ p, 2 ≤ p ∧ p ≤ 6 ∧ n.testBit p = true) := by
  have h1 : n &&& 2 ≠ 0 ↔ n.testBit 1 = true := by
    have e : (2 : Nat) = 1 <<< 1 := by decide
    rw [e]; exact and_ne_zero_iff_testBit n 1
  have h2 := and_0x7c_ne_zero n
  by_cases c1 : n &&& 2 ≠ 0 <;> by_cases c2 : n &&& 0x7c ≠ 0
  · rw [if_pos c2, if_pos c1]
    exact ⟨iff_of_true (by decide) (h1.mp c1),
           iff_of_true (by decide) (h2.mp c2)⟩
  · rw [if_neg c2, if_pos c1]
    exact ⟨iff_of_true (by decide) (h1.mp c1),
           iff_of_false (by decide) (fun hex => c2 (h2.mpr hex))⟩
  · rw [if_pos c2, if_neg c1]
    exact ⟨iff_of_false (by decide) (fun ht => c1 (h1.mpr ht)),
           iff_of_true (by decide) (h2.mp c2)⟩
  · rw [if_neg c2, if_neg c1]
    exact ⟨iff_of_false (by decide) (fun ht => c1 (h1.mpr ht)),
           iff_of_false (by decide) (fun hex => c2 (h2.mpr hex))⟩

/-- C1 (amended): in the primary control word produced by the synthesizer,
the first fixed freeze-enable bit is set iff one-based slot 1 is in use, and
the second fixed freeze-enable bit is set iff at least one of slots 2..6
(not 2..4) is in use. -/
theorem C1_mmcr0_freeze (events : List Nat) :
    ((power8_compute_mmcr events).mmcr0 &&& MMCR0_PMC1CE ≠ 0 ↔
      (power8_compute_mmcr events).pmc_inuse.testBit 1 = true) ∧
    ((power8_compute_mmcr events).mmcr0 &&& MMCR0_PMCjCE ≠ 0 ↔
      ∃ p, 2 ≤ p ∧ p ≤ 6 ∧ (power8_compute_mmcr events).pmc_inuse.testBit p = true) :=
  mmcr0_of_inuse
    ((events.foldl mmcrStep
      { pmc_inuse := mmcrPass1 events, mmcr1 := 0,
        mmcra := MMCRA_SDAR_MODE_TLB, hwc := [] }).pmc_inuse)

/-! ## C7 and C10: slot assignment for unpinned events -/

/-- The in-use bitset after k unpinned events have been assigned: bits
1..min k 4, plus bit 5 once the first four slots are exhausted. -/
def inuseStage (k : Nat) : Nat := 2 ^ (min k 5 + 1) - 2

lemma assignPmc_inuseStage (k : Nat) : assignPmc (inuseStage k) = min (k + 1) 5 := by
  rcases le_or_lt k 5 with h | h
  · interval_cases k <;> decide
  · have e1 : inuseStage k = 62 := by
      unfold inuseStage; rw [min_eq_right (by omega)]; decide
    have e2 : min (k + 1) 5 = 5 := by omega
    rw [e1, e2]; decide

lemma inuseStage_or (k : Nat) :
    inuseStage k ||| (1 <<< min (k + 1) 5) = inuseStage (k + 1) := by
  rcases le_or_lt k 5 with h | h
  · interval_cases k <;> decide
  · have e1 : inuseStage k = 62 := by
      unfold inuseStage; rw [min_eq_right (by omega)]; decide
    have e2 : min (k + 1) 5 = 5 := by omega
    have e3 : inuseStage (k + 1) = 62 := by
      unfold inuseStage; rw [min_eq_right (by omega)]; decide
    rw [e1, e2, e3]; decide

lemma mmcrStep_unpinned_inuse (s : MMCRState) (e : Nat) (he : pmcOf e = 0) :
    (mmcrStep s e).pmc_inuse = s.pmc_inuse ||| (1 <<< assignPmc s.pmc_inuse) := by
  simp only [mmcrStep, he]
  split <;> rfl

lemma mmcrStep_unpinned_hwc (s : MMCRState) (e : Nat) (he : pmcOf e = 0) :
    (mmcrStep s e).hwc = s.hwc ++ [assignPmc s.pmc_inuse - 1] := by
  simp only [mmcrStep, he]
  split <;> rfl

lemma foldl_mmcrStep_unpinned (events : List Nat) :
    ∀ (k : Nat) (s : MMCRState), s.pmc_inuse = inuseStage k →
      (∀ e ∈ events, pmcOf e = 0) →
      (events.foldl mmcrStep s).hwc
          = s.hwc ++ (List.range events.length).map (fun i => min (k + i) 4) ∧
      (events.foldl mmcrStep s).pmc_inuse = inuseStage (k + events.length) := by
  induction events with
  | nil => intro k s hs h; simp [hs]
  | cons e rest ih =>
    intro k s hs h
    have he : pmcOf e = 0 := h e (by simp)
    have hrest : ∀ x ∈ rest, pmcOf x = 0 := fun x hx => h x (by simp [hx])
    simp only [List.foldl_cons]
    have hin : (mmcrStep s e).pmc_inuse = inuseStage (k + 1) := by
      rw [mmcrStep_unpinned_inuse s e he, hs, assignPmc_inuseStage, inuseStage_or]
    have hhwc : (mmcrStep s e).hwc = s.hwc ++ [min k 4] := by
      rw [mmcrStep_unpinned_hwc s e he, hs, assignPmc_inuseStage]
      congr 2
      omega
    obtain ⟨ih1, ih2⟩ := ih (k + 1) (mmcrStep s e) hin hrest
    constructor
    · rw [ih1, hhwc, List.append_assoc]
      congr 1
      rw [List.length_cons, List.range_succ_eq_map, List.map_cons, List.map_map,
          List.singleton_append]
      congr 1
      apply List.map_congr_left
      intro a _
      show min (k + 1 + a) 4 = min (k + (a + 1)) 4
      have h9 : k + 1 + a = k + (a + 1) := by omega
      rw [h9]
    · have hlen : k + 1 + rest.length = k + (e :: rest).length := by
        rw [List.length_cons]; omega
      rw [ih2, hlen]

lemma foldl_pass1_const (events : List Nat) :
    ∀ acc, (∀ e ∈ events, pmcOf e = 0) →
      events.foldl (fun acc e => if pmcOf e ≠ 0 then acc ||| (1 <<< pmcOf e) else acc) acc
        = acc := by
  induction events with
  | nil => intro acc _; rfl
  | cons e rest ih =>
    intro acc h
    have he : pmcOf e = 0 := h e (by simp)
    simp only [List.foldl_cons, he, ne_eq, not_true_eq_false, if_neg, not_false_iff,
      ite_false]
    exact ih acc (fun x hx => h x (by simp [hx]))

lemma compute_mmcr_unpinned (events : List Nat) (h : ∀ e ∈ events, pmcOf e = 0) :
    (power8_compute_mmcr events).hwc
        = (List.range events.length).map (fun i => min i 4) ∧
    (power8_compute_mmcr events).ret = 0 := by
  have hp : mmcrPass1 events = 0 := by
    unfold mmcrPass1; exact foldl_pass1_const events 0 h
  have h0 : ({ pmc_inuse := mmcrPass1 events, mmcr1 := 0,
               mmcra := MMCRA_SDAR_MODE_TLB, hwc := [] } : MMCRState).pmc_inuse
      = inuseStage 0 := by
    simp [hp, inuseStage]
  obtain ⟨h1, _⟩ := foldl_mmcrStep_unpinned events 0 _ h0 h
  constructor
  · show (events.foldl mmcrStep _).hwc = _
    rw [h1]
    simp
  · rfl

/-- C7: four event descriptors all with counter-pin 0 are assigned the
pairwise-distinct zero-based slots 0, 1, 2, 3 in order, each receiving the
lowest-numbered slot among the first four that is still free. -/
theorem C7_four_unpinned (e1 e2 e3 e4 : Nat)
    (h1 : pmcOf e1 = 0) (h2 : pmcOf e2 = 0) (h3 : pmcOf e3 = 0) (h4 : pmcOf e4 = 0) :
    (power8_compute_mmcr [e1, e2, e3, e4]).hwc = [0, 1, 2, 3] := by
  have hmem : ∀ x ∈ [e1, e2, e3, e4], pmcOf x = 0 := by
    intro x hx
    rcases List.mem_cons.mp hx with rfl | hx1
    · exact h1
    rcases List.mem_cons.mp hx1 with rfl | hx2
    · exact h2
    rcases List.mem_cons.mp hx2 with rfl | hx3
    · exact h3
    rcases List.mem_cons.mp hx3 with rfl | hx4
    · exact h4
    exact absurd hx4 (List.not_mem_nil x)
  have h := compute_mmcr_unpinned [e1, e2, e3, e4] hmem
  have hlen : ([e1, e2, e3, e4] : List Nat).length = 4 := rfl
  rw [h.1, hlen]
  decide

/-- Witness for C7 at the all-zero descriptors. -/
theorem C7_witness : (power8_compute_mmcr [0, 0, 0, 0]).hwc = [0, 1, 2, 3] :=
  C7_four_unpinned 0 0 0 0 (by decide) (by decide) (by decide) (by decide)

/-- C10 (amended): when every event is unpinned, the i-th event receives
zero-based slot min i 4 — so every event after the first four is silently
assigned slot 4 (one-based counter 5) — and the synthesizer reports no
error; with six or more such events at least two share a slot.  (With
exactly five events the claimed collision does not occur: the five slots
0..4 are distinct, see the counterexample.) -/
theorem C10_unpinned_overflow (events : List Nat) (h : ∀ e ∈ events, pmcOf e = 0) :
    (power8_compute_mmcr events).hwc
        = (List.range events.length).map (fun i => min i 4) ∧
    (power8_compute_mmcr events).ret = 0 ∧
    (6 ≤ events.length → ¬ (power8_compute_mmcr events).hwc.Nodup) := by
  obtain ⟨h1, h2⟩ := compute_mmcr_unpinned events h
  refine ⟨h1, h2, ?_⟩
  intro h6 hnd
  rw [h1] at hnd
  have hsplit : events.length = 6 + (events.length - 6) := by omega
  rw [hsplit, List.range_add, List.map_append] at hnd
  have hleft := hnd.of_append_left
  have heq : (List.range 6).map (fun i => min i 4) = [0, 1, 2, 3, 4, 4] := by decide
  rw [heq] at hleft
  exact absurd hleft (by decide)

/-- Witness for C10 at six all-zero descriptors: the fifth and sixth events
both land on slot 4. -/
theorem C10_witness :
    (power8_compute_mmcr [0, 0, 0, 0, 0, 0]).hwc = [0, 1, 2, 3, 4, 4] ∧
    ¬ (power8_compute_mmcr [0, 0, 0, 0, 0, 0]).hwc.Nodup := by
  have h := C10_unpinned_overflow [0, 0, 0, 0, 0, 0] (by decide)
  exact ⟨h.1.trans (by decide), h.2.2 (by decide)⟩

/-! ## C8: the alternatives resolver count bounds -/

lemma findAlternativeIn_mem (event : Nat) :
    ∀ (l : List (Nat × Nat)) (r : Nat × Nat), findAlternativeIn event l = some r →
      r ∈ l ∧ (event = r.1 ∨ event = r.2) := by
  intro l
  induction l with
  | nil => intro r h; exact absurd h (by simp [findAlternativeIn])
  | cons p rest ih =>
    intro r h
    obtain ⟨a, b⟩ := p
    unfold findAlternativeIn at h
    split_ifs at h with h1 h2 h3
    · obtain rfl : (a, b) = r := Option.some.inj h
      exact ⟨List.mem_cons_self _ _, Or.inl h2.2⟩
    · obtain rfl : (a, b) = r := Option.some.inj h
      exact ⟨List.mem_cons_self _ _, Or.inr h3.2.2⟩
    · obtain ⟨hm, he⟩ := ih r h
      exact ⟨List.mem_cons_of_mem _ hm, he⟩

lemma table_runSubst_fst (a b : Nat) (h : (a, b) ∈ event_alternatives) :
    runSubst a = none := by
  have hall : ∀ x ∈ event_alternatives.map Prod.fst, runSubst x = none := by decide
  exact hall a (List.mem_map_of_mem Prod.fst h)

lemma filterMap_runSubst_len_le (l : List Nat) :
    (l.filterMap runSubst).length ≤ l.length :=
  List.length_filterMap_le runSubst l

lemma power8_get_alternatives_none (event : Nat) (o : Bool)
    (h : find_alternative event = none) :
    power8_get_alternatives event o
      = if o then [event] ++ [event].filterMap runSubst else [event] := by
  unfold power8_get_alternatives
  rw [h]

lemma power8_get_alternatives_some (event a b : Nat) (o : Bool)
    (h : find_alternative event = some (a, b)) :
    power8_get_alternatives event o
      = (if o then
          ([event] ++ (if a ≠ 0 ∧ a ≠ event then [a] else [])
            ++ (if b ≠ 0 ∧ b ≠ event then [b] else []))
          ++ (([event] ++ (if a ≠ 0 ∧ a ≠ event then [a] else [])
            ++ (if b ≠ 0 ∧ b ≠ event then [b] else [])).filterMap runSubst)
        else
          [event] ++ (if a ≠ 0 ∧ a ≠ event then [a] else [])
            ++ (if b ≠ 0 ∧ b ≠ event then [b] else [])) := by
  unfold power8_get_alternatives
  rw [h]

/-- C8: for every event descriptor and every flags value, the alternatives
resolver returns at least one descriptor (the input itself comes first) and
at most power8_max_alternatives = 3 of them. -/
theorem C8_alternatives_count (event : Nat) (only_count_run : Bool) :
    1 ≤ (power8_get_alternatives event only_count_run).length ∧
    (power8_get_alternatives event only_count_run).length ≤ power8_max_alternatives := by
  have hm : power8_max_alternatives = 3 := rfl
  cases hfa : find_alternative event with
  | none =>
    rw [power8_get_alternatives_none event only_count_run hfa]
    cases only_count_run with
    | false =>
      simp only [Bool.false_eq_true, ite_false, List.length_singleton, hm]
      omega
    | true =>
      have hb := filterMap_runSubst_len_le [event]
      simp only [List.length_singleton] at hb
      simp only [ite_true, List.length_append, List.length_singleton, hm]
      omega
  | some r =>
    obtain ⟨a, b⟩ := r
    rw [power8_get_alternatives_some event a b only_count_run hfa]
    obtain ⟨hmem, hor⟩ := findAlternativeIn_mem event event_alternatives (a, b) hfa
    have hra : runSubst a = none := table_runSubst_fst a b hmem
    simp only at hor
    have base_ge : 1 ≤ ([event] ++ (if a ≠ 0 ∧ a ≠ event then [a] else [])
        ++ (if b ≠ 0 ∧ b ≠ event then [b] else [])).length := by
      simp
    have base_le : ([event] ++ (if a ≠ 0 ∧ a ≠ event then [a] else [])
        ++ (if b ≠ 0 ∧ b ≠ event then [b] else [])).length ≤ 2 := by
      rcases hor with h1 | h1
      · rw [if_neg (fun hc => hc.2 h1.symm : ¬(a ≠ 0 ∧ a ≠ event))]
        split_ifs <;> simp
      · rw [if_neg (fun hc => hc.2 h1.symm : ¬(b ≠ 0 ∧ b ≠ event))]
        split_ifs <;> simp
    have fm_le : (([event] ++ (if a ≠ 0 ∧ a ≠ event then [a] else [])
        ++ (if b ≠ 0 ∧ b ≠ event then [b] else [])).filterMap runSubst).length ≤ 1 := by
      rw [List.filterMap_append, List.filterMap_append, List.length_append,
          List.length_append]
      rcases hor with h1 | h1
      · have hre : runSubst event = none := by rw [h1]; exact hra
        have h01 : ([event].filterMap runSubst).length = 0 := by simp [hre]
        have h02 : ((if a ≠ 0 ∧ a ≠ event then [a] else []).filterMap runSubst).length
            = 0 := by
          rw [if_neg (fun hc => hc.2 h1.symm : ¬(a ≠ 0 ∧ a ≠ event))]
          simp
        have h03 : ((if b ≠ 0 ∧ b ≠ event then [b] else []).filterMap runSubst).length
            ≤ 1 := by
          split_ifs
          · exact le_trans (filterMap_runSubst_len_le [b]) (by simp)
          · simp
        omega
      · have h01 : ([event].filterMap runSubst).length ≤ 1 :=
          le_trans (filterMap_runSubst_len_le [event]) (by simp)
        have h02 : ((if a ≠ 0 ∧ a ≠ event then [a] else []).filterMap runSubst).length
            = 0 := by
          split_ifs
          · simp [hra]
          · simp
        have h03 : ((if b ≠ 0 ∧ b ≠ event then [b] else []).filterMap runSubst).length
            = 0 := by
          rw [if_neg (fun hc => hc.2 h1.symm : ¬(b ≠ 0 ∧ b ≠ event))]
          simp
        omega
    generalize hL : ([event] ++ (if a ≠ 0 ∧ a ≠ event then [a] else [])
        ++ (if b ≠ 0 ∧ b ≠ event then [b] else [])) = L at base_ge base_le fm_le ⊢
    cases only_count_run with
    | false =>
      simp only [Bool.false_eq_true, ite_false]
      exact ⟨base_ge, by rw [hm]; omega⟩
    | true =>
      simp only [ite_true]
      rw [List.length_append, hm]
      omega

/-! ## Infrastructure for the constraint generator claims -/

lemma CNST_PMC_MASK_lt (p : Nat) (h : p ≤ 6) : CNST_PMC_MASK p < 2 ^ 12 := by
  interval_cases p <;> decide

lemma CNST_PMC_VAL_lt (p : Nat) (h : p ≤ 6) : CNST_PMC_VAL p < 2 ^ 12 := by
  interval_cases p <;> decide

lemma masked_shl_lt (v c j k : Nat) (hc : c < 2 ^ j) : (v &&& c) <<< k < 2 ^ (j + k) := by
  have h1 : v &&& c < 2 ^ j := Nat.and_lt_two_pow v hc
  rw [Nat.shiftLeft_eq, Nat.pow_add]
  exact Nat.mul_lt_mul_of_lt_of_le h1 (le_refl _) (Nat.two_pow_pos k)

lemma cnstBaseMask_lt (e : Nat) (h : pmcOf e ≤ 6) : cnstBaseMask e < 2 ^ 24 := by
  unfold cnstBaseMask
  have h1 : (if pmcOf e ≠ 0 then CNST_PMC_MASK (pmcOf e) else 0) < 2 ^ 24 := by
    split_ifs
    · exact lt_of_lt_of_le (CNST_PMC_MASK_lt _ h) (by norm_num)
    · norm_num
  have h2 : (if pmcOf e ≤ 4 then CNST_NC_MASK else 0) < 2 ^ 24 := by
    split_ifs <;> decide
  have h3 : (if ¬(6 ≤ unitOf e ∧ unitOf e ≤ 9) ∧ e &&& EVENT_IS_L1 ≠ 0 then
      CNST_L1_QUAL_MASK else 0) < 2 ^ 24 := by
    split_ifs <;> decide
  have h4 : (if e &&& EVENT_IS_MARKED ≠ 0 then CNST_SAMPLE_MASK else 0) < 2 ^ 24 := by
    split_ifs <;> decide
  exact Nat.or_lt_two_pow (Nat.or_lt_two_pow (Nat.or_lt_two_pow h1 h2) h3) h4

lemma cnstBaseVal_lt (e : Nat) (h : pmcOf e ≤ 6) : cnstBaseVal e < 2 ^ 24 := by
  unfold cnstBaseVal
  have h1 : (if pmcOf e ≠ 0 then CNST_PMC_VAL (pmcOf e) else 0) < 2 ^ 24 := by
    split_ifs
    · exact lt_of_lt_of_le (CNST_PMC_VAL_lt _ h) (by norm_num)
    · norm_num
  have h2 : (if pmcOf e ≤ 4 then CNST_NC_VAL else 0) < 2 ^ 24 := by
    split_ifs <;> decide
  have h3 : (if ¬(6 ≤ unitOf e ∧ unitOf e ≤ 9) ∧ e &&& EVENT_IS_L1 ≠ 0 then
      CNST_L1_QUAL_VAL (cacheOf e) else 0) < 2 ^ 24 := by
    split_ifs
    · exact lt_of_lt_of_le (masked_shl_lt (cacheOf e) 3 2 22 (by decide)) (by norm_num)
    · norm_num
  have h4 : (if e &&& EVENT_IS_MARKED ≠ 0 then
      CNST_SAMPLE_VAL (e >>> EVENT_SAMPLE_SHIFT) else 0) < 2 ^ 24 := by
    split_ifs
    · exact lt_of_lt_of_le
        (masked_shl_lt (e >>> EVENT_SAMPLE_SHIFT) EVENT_SAMPLE_MASK 5 16 (by decide))
        (by norm_num)
    · norm_num
  exact Nat.or_lt_two_pow (Nat.or_lt_two_pow (Nat.or_lt_two_pow h1 h2) h3) h4

lemma getConstraint_some {e m v : Nat} (h : power8_get_constraint e = some (m, v)) :
    pmcOf e ≤ 6 ∧
    (5 ≤ pmcOf e → e = 0x500fa ∨ e = 0x600f4) ∧
    (6 ≤ unitOf e → unitOf e ≤ 9 → cacheOf e = 0) ∧
    ((event_is_fab_match e = true ∧
        m = cnstBaseMask e ||| CNST_FAB_MATCH_MASK ∧
        v = cnstBaseVal e ||| CNST_FAB_MATCH_VAL (e >>> EVENT_THR_CTL_SHIFT)) ∨
      (event_is_fab_match e = false ∧ (expOf e = 0 ∨ cmpOf e &&& 0x60 ≠ 0) ∧
        m = cnstBaseMask e ||| CNST_THRESH_MASK ∧
        v = cnstBaseVal e ||| CNST_THRESH_VAL (e >>> EVENT_THRESH_SHIFT))) := by
  unfold power8_get_constraint at h
  split_ifs at h with h1 h2 h3 h4 h5
  · rw [Option.some.injEq, Prod.mk.injEq] at h
    refine ⟨by omega, ?_, ?_, Or.inl ⟨h4, h.1.symm, h.2.symm⟩⟩
    · intro hp5
      by_contra hne
      push_neg at hne
      exact h2 ⟨by omega, hp5, hne.1, hne.2⟩
    · intro hu1 hu2
      by_contra hc
      exact h3 ⟨hu1, hu2, hc⟩
  · rw [Option.some.injEq, Prod.mk.injEq] at h
    rw [Bool.not_eq_true] at h4
    push_neg at h5
    refine ⟨by omega, ?_, ?_, Or.inr ⟨h4, ?_, h.1.symm, h.2.symm⟩⟩
    · intro hp5
      by_contra hne
      push_neg at hne
      exact h2 ⟨by omega, hp5, hne.1, hne.2⟩
    · intro hu1 hu2
      by_contra hc
      exact h3 ⟨hu1, hu2, hc⟩
    · by_cases he : expOf e = 0
      · exact Or.inl he
      · exact Or.inr (h5 he)

lemma cnstBaseMask_and_ffff (e : Nat) (h : pmcOf e ≤ 6) :
    cnstBaseMask e &&& 0xffff
      = (if pmcOf e ≠ 0 then CNST_PMC_MASK (pmcOf e) else 0)
        ||| (if pmcOf e ≤ 4 then CNST_NC_MASK else 0) := by
  unfold cnstBaseMask
  rw [Nat.and_distrib_right, Nat.and_distrib_right, Nat.and_distrib_right]
  have c1 : (if pmcOf e ≠ 0 then CNST_PMC_MASK (pmcOf e) else 0) &&& 0xffff
      = (if pmcOf e ≠ 0 then CNST_PMC_MASK (pmcOf e) else 0) := by
    split_ifs
    · have hx : (0xffff : Nat) = 2 ^ 16 - 1 := by decide
      rw [hx]
      exact Nat.and_pow_two_sub_one_of_lt_two_pow
        (lt_of_lt_of_le (CNST_PMC_MASK_lt _ h) (by norm_num))
    · simp
  have c2 : (if pmcOf e ≤ 4 then CNST_NC_MASK else 0) &&& 0xffff
      = (if pmcOf e ≤ 4 then CNST_NC_MASK else 0) := by
    split_ifs <;> decide
  have c3 : (if ¬(6 ≤ unitOf e ∧ unitOf e ≤ 9) ∧ e &&& EVENT_IS_L1 ≠ 0 then
      CNST_L1_QUAL_MASK else 0) &&& 0xffff = 0 := by
    split_ifs <;> decide
  have c4 : (if e &&& EVENT_IS_MARKED ≠ 0 then CNST_SAMPLE_MASK else 0) &&& 0xffff
      = 0 := by
    split_ifs <;> decide
  rw [c1, c2, c3, c4, Nat.or_zero, Nat.or_zero]

lemma cnstBaseVal_and_ffff (e : Nat) (h : pmcOf e ≤ 6) :
    cnstBaseVal e &&& 0xffff
      = (if pmcOf e ≠ 0 then CNST_PMC_VAL (pmcOf e) else 0)
        ||| (if pmcOf e ≤ 4 then CNST_NC_VAL else 0) := by
  unfold cnstBaseVal
  rw [Nat.and_distrib_right, Nat.and_distrib_right, Nat.and_distrib_right]
  have c1 : (if pmcOf e ≠ 0 then CNST_PMC_VAL (pmcOf e) else 0) &&& 0xffff
      = (if pmcOf e ≠ 0 then CNST_PMC_VAL (pmcOf e) else 0) := by
    split_ifs
    · have hx : (0xffff : Nat) = 2 ^ 16 - 1 := by decide
      rw [hx]
      exact Nat.and_pow_two_sub_one_of_lt_two_pow
        (lt_of_lt_of_le (CNST_PMC_VAL_lt _ h) (by norm_num))
    · simp
  have c2 : (if pmcOf e ≤ 4 then CNST_NC_VAL else 0) &&& 0xffff
      = (if pmcOf e ≤ 4 then CNST_NC_VAL else 0) := by
    split_ifs <;> decide
  have c3 : (if ¬(6 ≤ unitOf e ∧ unitOf e ≤ 9) ∧ e &&& EVENT_IS_L1 ≠ 0 then
      CNST_L1_QUAL_VAL (cacheOf e) else 0) &&& 0xffff = 0 := by
    split_ifs
    · unfold CNST_L1_QUAL_VAL
      exact shl_and_of_le _ _ (by norm_num : (16 : Nat) ≤ 22) (by decide)
    · simp
  have c4 : (if e &&& EVENT_IS_MARKED ≠ 0 then
      CNST_SAMPLE_VAL (e >>> EVENT_SAMPLE_SHIFT) else 0) &&& 0xffff = 0 := by
    split_ifs
    · unfold CNST_SAMPLE_VAL
      exact shl_and_of_le _ _ (by norm_num : (16 : Nat) ≤ 16) (by decide)
    · simp
  rw [c1, c2, c3, c4, Nat.or_zero, Nat.or_zero]

lemma getConstraint_low16 {e m v : Nat} (h : power8_get_constraint e = some (m, v)) :
    pmcOf e ≤ 6 ∧
    m &&& 0xffff
      = (if pmcOf e ≠ 0 then CNST_PMC_MASK (pmcOf e) else 0)
        ||| (if pmcOf e ≤ 4 then CNST_NC_MASK else 0) ∧
    v &&& 0xffff
      = (if pmcOf e ≠ 0 then CNST_PMC_VAL (pmcOf e) else 0)
        ||| (if pmcOf e ≤ 4 then CNST_NC_VAL else 0) := by
  obtain ⟨hp, _, _, hcase⟩ := getConstraint_some h
  refine ⟨hp, ?_, ?_⟩
  · rcases hcase with ⟨_, hm, _⟩ | ⟨_, _, hm, _⟩ <;> rw [hm, Nat.and_distrib_right]
    · have hc : CNST_FAB_MATCH_MASK &&& 0xffff = 0 := by decide
      rw [hc, Nat.or_zero, cnstBaseMask_and_ffff e hp]
    · have hc : CNST_THRESH_MASK &&& 0xffff = 0 := by decide
      rw [hc, Nat.or_zero, cnstBaseMask_and_ffff e hp]
  · rcases hcase with ⟨_, _, hv⟩ | ⟨_, _, _, hv⟩ <;> rw [hv, Nat.and_distrib_right]
    · have hc : CNST_FAB_MATCH_VAL (e >>> EVENT_THR_CTL_SHIFT) &&& 0xffff = 0 := by
        unfold CNST_FAB_MATCH_VAL
        exact shl_and_of_le _ _ (by norm_num : (16 : Nat) ≤ 56) (by decide)
      rw [hc, Nat.or_zero, cnstBaseVal_and_ffff e hp]
    · have hc : CNST_THRESH_VAL (e >>> EVENT_THRESH_SHIFT) &&& 0xffff = 0 := by
        unfold CNST_THRESH_VAL
        exact shl_and_of_le _ _ (by norm_num : (16 : Nat) ≤ 32) (by decide)
      rw [hc, Nat.or_zero, cnstBaseVal_and_ffff e hp]

/-- C9: for every accepted event, in each adder sub-range of the constraint
vector (the six two-bit per-counter fields at bits 0..11 and the
counters-in-use field at bits 12..15), whenever the value contributes one
unit (the low bit of the sub-range) the mask has the high bit of that
sub-range set, and the mask sets no bit of any adder sub-range other than
the high bits (mask 0x7555 covers all non-high adder bits). -/
theorem C9_adder_invariant (e m v : Nat) (h : power8_get_constraint e = some (m, v)) :
    (∀ p, 1 ≤ p → p ≤ 6 → v &&& CNST_PMC_VAL p ≠ 0 →
      m &&& CNST_PMC_MASK p = CNST_PMC_MASK p) ∧
    (v &&& CNST_NC_VAL ≠ 0 → m &&& CNST_NC_MASK = CNST_NC_MASK) ∧
    m &&& 0x7555 = 0 := by
  obtain ⟨hp, hm16, hv16⟩ := getConstraint_low16 h
  have key : ∀ w c : Nat, c < 2 ^ 16 → w &&& c = (w &&& 0xffff) &&& c := by
    intro w c hc
    have h1 : (0xffff : Nat) &&& c = c := by
      rw [Nat.and_comm]
      have hx : (0xffff : Nat) = 2 ^ 16 - 1 := by decide
      rw [hx]
      exact Nat.and_pow_two_sub_one_of_lt_two_pow hc
    rw [Nat.and_assoc, h1]
  refine ⟨?_, ?_, ?_⟩
  · intro p hp1 hp6 hvp
    have hcv : CNST_PMC_VAL p < 2 ^ 16 :=
      lt_of_lt_of_le (CNST_PMC_VAL_lt p hp6) (by norm_num)
    have hcm : CNST_PMC_MASK p < 2 ^ 16 :=
      lt_of_lt_of_le (CNST_PMC_MASK_lt p hp6) (by norm_num)
    rw [key v _ hcv, hv16] at hvp
    rw [key m _ hcm, hm16]
    set q := pmcOf e with hq
    revert hvp
    interval_cases q <;> interval_cases p <;> decide
  · intro hvn
    rw [key v CNST_NC_VAL (by decide), hv16] at hvn
    rw [key m CNST_NC_MASK (by decide), hm16]
    set q := pmcOf e with hq
    revert hvn
    interval_cases q <;> decide
  · rw [key m 0x7555 (by decide), hm16]
    set q := pmcOf e with hq
    interval_cases q <;> decide

/-- Witness for C9 at the event 0x10000 (pinned to counter 1). -/
theorem C9_witness : (0x1fffff00008002 : Nat) &&& 0x7555 = 0 :=
  (C9_adder_invariant 0x10000 0x1fffff00008002 0x1001 (by decide)).2.2

/-! ## C3: the counter-pin checks -/

/-- C3 (amended): the generator rejects every event whose counter-pin field
exceeds 6; for an event pinned to counter 5 or 6 it rejects exactly when the
event is not the single legal full event code for those counters (0x500fa
respectively 0x600f4) — the comparison is on the whole event code, not on
the selector field alone; an event pinned to counters 1..4 is rejected only
by the cache-unit or threshold-compare checks, never on account of the
pin. -/
theorem C3_pmc_checks (e : Nat) :
    (6 < pmcOf e → power8_get_constraint e = none) ∧
    (5 ≤ pmcOf e → pmcOf e ≤ 6 →
      (power8_get_constraint e = none ↔ (e ≠ 0x500fa ∧ e ≠ 0x600f4))) ∧
    (1 ≤ pmcOf e → pmcOf e ≤ 4 →
      (power8_get_constraint e = none ↔
        ((6 ≤ unitOf e ∧ unitOf e ≤ 9 ∧ cacheOf e ≠ 0) ∨
         (event_is_fab_match e = false ∧ expOf e ≠ 0 ∧ cmpOf e &&& 0x60 = 0)))) := by
  refine ⟨?_, ?_, ?_⟩
  · intro h6
    unfold power8_get_constraint
    rw [if_pos ⟨by omega, h6⟩]
  · intro h5 h6
    constructor
    · intro hnone
      constructor
      · rintro rfl
        exact absurd hnone (by decide)
      · rintro rfl
        exact absurd hnone (by decide)
    · rintro ⟨hA, hB⟩
      unfold power8_get_constraint
      rw [if_neg (by omega), if_pos ⟨by omega, h5, hA, hB⟩]
  · intro h1 h4
    unfold power8_get_constraint
    rw [if_neg (by omega), if_neg (by omega)]
    split_ifs with hc hf ht
    · exact iff_of_true rfl (Or.inl hc)
    · refine iff_of_false (by simp) ?_
      rintro (hcc | ⟨hff, _⟩)
      · exact hc hcc
      · rw [hf] at hff
        exact absurd hff (by decide)
    · rw [Bool.not_eq_true] at hf
      exact iff_of_true rfl (Or.inr ⟨hf, ht.1, ht.2⟩)
    · refine iff_of_false (by simp) ?_
      rintro (hcc | ⟨_, he, hcm⟩)
      · exact hc hcc
      · exact ht ⟨he, hcm⟩

/-- Witness for C3 at event 0x70000, whose counter-pin field is 7. -/
theorem C3_witness : power8_get_constraint 0x70000 = none :=
  (C3_pmc_checks 0x70000).1 (by decide)

/-! ## C5: the reserved cache-unit check -/

lemma and_shiftRight (a b k : Nat) : (a &&& b) >>> k = (a >>> k) &&& (b >>> k) := by
  apply Nat.eq_of_testBit_eq
  intro i
  simp [Nat.testBit_shiftRight, Nat.testBit_and]

lemma fab_match_unit (e : Nat) (hb : event_is_fab_match e = true) :
    unitOf e = 0 ∨ unitOf e = 0xf := by
  have hm : e &&& 0xff0fe = 0x30056 ∨ e &&& 0xff0fe = 0x4f052 := by
    unfold event_is_fab_match at hb
    simpa [Bool.or_eq_true, beq_iff_eq] using hb
  have hunit : unitOf (e &&& 0xff0fe) = unitOf e := by
    unfold unitOf evField EVENT_UNIT_SHIFT EVENT_UNIT_MASK
    rw [and_shiftRight]
    have h1 : (0xff0fe : Nat) >>> 12 = 0xff := by decide
    rw [h1, Nat.and_assoc]
    have h2 : (0xff : Nat) &&& 0xf = 0xf := by decide
    rw [h2]
  rcases hm with hm | hm
  · left
    rw [← hunit, hm]
    decide
  · right
    rw [← hunit, hm]
    decide

/-- C5 (amended): for an event that passes the counter-pin checks and whose
unit code lies in the reserved range 6..9, the generator rejects when the
cache sub-selector is non-zero; when the sub-selector is zero, the event is
rejected if and only if its threshold-compare field is an illegal denormal
encoding — not never — and an accepted event carries no cache-qualifier
constraint. -/
theorem C5_cache_units (e : Nat)
    (hpin1 : pmcOf e ≤ 6) (hpin2 : 5 ≤ pmcOf e → e = 0x500fa ∨ e = 0x600f4)
    (hu : 6 ≤ unitOf e ∧ unitOf e ≤ 9) :
    (cacheOf e ≠ 0 → power8_get_constraint e = none) ∧
    (cacheOf e = 0 →
      ((power8_get_constraint e = none ↔ (expOf e ≠ 0 ∧ cmpOf e &&& 0x60 = 0)) ∧
       (∀ m v : Nat, power8_get_constraint e = some (m, v) →
          m &&& CNST_L1_QUAL_MASK = 0))) := by
  have hp4 : ¬ 5 ≤ pmcOf e := by
    intro h5
    rcases hpin2 h5 with rfl | rfl
    · exact absurd hu (by decide)
    · exact absurd hu (by decide)
  have hfab : event_is_fab_match e = false := by
    by_contra hb
    rw [Bool.not_eq_false] at hb
    rcases fab_match_unit e hb with h0 | h0 <;> omega
  have hno4 : ¬(event_is_fab_match e = true) := by
    rw [hfab]
    decide
  refine ⟨?_, ?_⟩
  · intro hcc
    unfold power8_get_constraint
    rw [if_neg (by omega), if_neg (fun hx => hp4 hx.2.1), if_pos ⟨hu.1, hu.2, hcc⟩]
  · intro hc0
    constructor
    · unfold power8_get_constraint
      rw [if_neg (by omega), if_neg (fun hx => hp4 hx.2.1),
          if_neg (fun hx => hx.2.2 hc0), if_neg hno4]
      split_ifs with ht
      · exact iff_of_true rfl ht
      · exact iff_of_false (by simp) ht
    · intro m v hmv
      obtain ⟨hp', _, _, hcase⟩ := getConstraint_some hmv
      rcases hcase with ⟨hf', _, _⟩ | ⟨_, _, hm, _⟩
      · exact absurd hf' hno4
      · rw [hm, Nat.and_distrib_right]
        have h1 : cnstBaseMask e &&& CNST_L1_QUAL_MASK = 0 := by
          unfold cnstBaseMask
          rw [Nat.and_distrib_right, Nat.and_distrib_right, Nat.and_distrib_right]
          have c1 : (if pmcOf e ≠ 0 then CNST_PMC_MASK (pmcOf e) else 0)
              &&& CNST_L1_QUAL_MASK = 0 := by
            split_ifs
            · have hLM : CNST_L1_QUAL_MASK = 3 <<< 22 := by decide
              rw [hLM]
              exact and_shl_of_le _ _ (by norm_num : (12 : Nat) ≤ 22)
                (CNST_PMC_MASK_lt _ hp')
            · simp
          have c2 : (if pmcOf e ≤ 4 then CNST_NC_MASK else 0)
              &&& CNST_L1_QUAL_MASK = 0 := by
            split_ifs <;> decide
          have c3 : (if ¬(6 ≤ unitOf e ∧ unitOf e ≤ 9) ∧ e &&& EVENT_IS_L1 ≠ 0 then
              CNST_L1_QUAL_MASK else 0) &&& CNST_L1_QUAL_MASK = 0 := by
            rw [if_neg (fun hx => hx.1 hu)]
            simp
          have c4 : (if e &&& EVENT_IS_MARKED ≠ 0 then CNST_SAMPLE_MASK else 0)
              &&& CNST_L1_QUAL_MASK = 0 := by
            split_ifs <;> decide
          rw [c1, c2, c3, c4]
          simp
        have h2 : CNST_THRESH_MASK &&& CNST_L1_QUAL_MASK = 0 := by decide
        rw [h1, h2]
        simp

/-- Witness for C5 at event 0x116000: unit 6, cache sub-selector 1, pin 1. -/
theorem C5_witness : power8_get_constraint 0x116000 = none :=
  (C5_cache_units 0x116000 (by decide) (fun h => absurd h (by decide))
    (by decide)).1 (by decide)

/-! ## C6: threshold-compare legality -/

/-- C6: for an event that is not a fabric match and passes the counter-pin
and cache-unit checks: if the 3-bit exponent prefix of the 10-bit
threshold-compare field is zero the event is accepted and the full threshold
constraint is contributed; if the prefix is non-zero the event is rejected
exactly when the two highest mantissa bits (mask 0x60) are both zero. -/
theorem C6_thresh_cmp (e : Nat)
    (hf : event_is_fab_match e = false)
    (hp1 : pmcOf e ≤ 6) (hp2 : 5 ≤ pmcOf e → e = 0x500fa ∨ e = 0x600f4)
    (hc : 6 ≤ unitOf e → unitOf e ≤ 9 → cacheOf e = 0) :
    (expOf e = 0 →
      power8_get_constraint e
        = some (cnstBaseMask e ||| CNST_THRESH_MASK,
                cnstBaseVal e ||| CNST_THRESH_VAL (e >>> EVENT_THRESH_SHIFT)) ∧
      (cnstBaseMask e ||| CNST_THRESH_MASK) &&& CNST_THRESH_MASK
        = CNST_THRESH_MASK) ∧
    (expOf e ≠ 0 → (power8_get_constraint e = none ↔ cmpOf e &&& 0x60 = 0)) := by
  have hno2 : ¬(pmcOf e ≠ 0 ∧ 5 ≤ pmcOf e ∧ e ≠ 0x500fa ∧ e ≠ 0x600f4) := by
    rintro ⟨_, h5, hA, hB⟩
    rcases hp2 h5 with rfl | rfl
    · exact hA rfl
    · exact hB rfl
  have hno3 : ¬(6 ≤ unitOf e ∧ unitOf e ≤ 9 ∧ cacheOf e ≠ 0) := by
    rintro ⟨hu1, hu2, hcc⟩
    exact hcc (hc hu1 hu2)
  have hno4 : ¬(event_is_fab_match e = true) := by
    rw [hf]
    decide
  constructor
  · intro hexp
    constructor
    · unfold power8_get_constraint
      rw [if_neg (by omega), if_neg hno2, if_neg hno3, if_neg hno4,
          if_neg (by rintro ⟨hne, _⟩; exact hne hexp)]
    · rw [Nat.and_distrib_right]
      have h1 : cnstBaseMask e &&& CNST_THRESH_MASK = 0 := by
        have hTM : CNST_THRESH_MASK = 0x1fffff <<< 32 := by decide
        rw [hTM]
        exact and_shl_of_le _ _ (by norm_num : (24 : Nat) ≤ 32) (cnstBaseMask_lt e hp1)
      rw [h1, Nat.and_self]
      simp
  · intro hexp
    unfold power8_get_constraint
    rw [if_neg (by omega), if_neg hno2, if_neg hno3, if_neg hno4]
    split_ifs with ht
    · exact iff_of_true rfl ht.2
    · refine iff_of_false (by simp) ?_
      intro hcm
      exact ht ⟨hexp, hcm⟩

/-- Witness for C6 at the zero event descriptor. -/
theorem C6_witness :
    power8_get_constraint 0
      = some (cnstBaseMask 0 ||| CNST_THRESH_MASK,
              cnstBaseVal 0 ||| CNST_THRESH_VAL (0 >>> EVENT_THRESH_SHIFT)) :=
  ((C6_thresh_cmp 0 (by decide) (by decide) (fun h => absurd h (by decide))
      (fun h _ => absurd h (by decide))).1 rfl).1

/-! ## C2: fabric-match detection and routing -/

lemma or_and_zero (x y F : Nat) (hx : x &&& F = 0) (hy : y &&& F = 0) :
    (x ||| y) &&& F = 0 := by
  rw [Nat.and_distrib_right, hx, hy]
  simp

lemma low8_and_thrfields (m : Nat) (hm : m < 2 ^ 8) : m &&& 0x3ff0007ff00 = 0 := by
  have hF : (0x3ff0007ff00 : Nat) = 0x3ff0007ff <<< 8 := by decide
  rw [hF]
  exact and_shl_of_le _ _ (le_refl 8) hm

lemma low8_and_ctlfield (m : Nat) (hm : m < 2 ^ 8) :
    m &&& (0xff <<< MMCRA_THR_CTL_SHIFT) = 0 :=
  and_shl_of_le _ _ (by decide : (8 : Nat) ≤ MMCRA_THR_CTL_SHIFT) hm

lemma samp_mode_lt (val : Nat) :
    ((val &&& 3) <<< MMCRA_SAMP_MODE_SHIFT) < 2 ^ 8 :=
  lt_of_lt_of_le (masked_shl_lt val 3 2 MMCRA_SAMP_MODE_SHIFT (by decide))
    (by decide)

lemma samp_elig_lt (val : Nat) (h : val < 2 ^ 5) :
    ((val >>> 2) <<< MMCRA_SAMP_ELIG_SHIFT) < 2 ^ 8 := by
  have h1 : val >>> 2 < 2 ^ 3 := by
    rw [Nat.shiftRight_eq_div_pow]
    omega
  rw [Nat.shiftLeft_eq]
  have h2 : (2 : Nat) ^ MMCRA_SAMP_ELIG_SHIFT = 16 := by decide
  rw [h2]
  omega

lemma evField_sample_lt (e : Nat) :
    evField e EVENT_SAMPLE_SHIFT EVENT_SAMPLE_MASK < 2 ^ 5 := by
  unfold evField
  exact Nat.and_lt_two_pow _ (by decide)

lemma mmcrStep_fab_mmcra (s : MMCRState) (e : Nat)
    (hf : event_is_fab_match e = true) :
    (mmcrStep s e).mmcra
      = if e &&& EVENT_IS_MARKED ≠ 0 then
          (if evField e EVENT_SAMPLE_SHIFT EVENT_SAMPLE_MASK ≠ 0 then
            s.mmcra ||| MMCRA_SAMPLE_ENABLE
              ||| ((evField e EVENT_SAMPLE_SHIFT EVENT_SAMPLE_MASK &&& 3)
                    <<< MMCRA_SAMP_MODE_SHIFT)
              ||| ((evField e EVENT_SAMPLE_SHIFT EVENT_SAMPLE_MASK >>> 2)
                    <<< MMCRA_SAMP_ELIG_SHIFT)
           else s.mmcra ||| MMCRA_SAMPLE_ENABLE)
        else s.mmcra := by
  simp only [mmcrStep]
  rw [if_pos hf]

lemma mmcrStep_fab_mmcr1 (s : MMCRState) (e : Nat)
    (hf : event_is_fab_match e = true) :
    ∃ x : Nat, (mmcrStep s e).mmcr1
      = x ||| ((e >>> EVENT_THR_CTL_SHIFT) &&& EVENT_THR_CTL_MASK) := by
  simp only [mmcrStep]
  rw [if_pos hf]
  exact ⟨_, rfl⟩

lemma mmcrStep_nonfab_mmcra (s : MMCRState) (e : Nat)
    (hf : event_is_fab_match e = false) :
    (mmcrStep s e).mmcra
      = (if e &&& EVENT_IS_MARKED ≠ 0 then
          (if evField e EVENT_SAMPLE_SHIFT EVENT_SAMPLE_MASK ≠ 0 then
            s.mmcra ||| MMCRA_SAMPLE_ENABLE
              ||| ((evField e EVENT_SAMPLE_SHIFT EVENT_SAMPLE_MASK &&& 3)
                    <<< MMCRA_SAMP_MODE_SHIFT)
              ||| ((evField e EVENT_SAMPLE_SHIFT EVENT_SAMPLE_MASK >>> 2)
                    <<< MMCRA_SAMP_ELIG_SHIFT)
           else s.mmcra ||| MMCRA_SAMPLE_ENABLE)
         else s.mmcra)
        ||| (((e >>> EVENT_THR_CTL_SHIFT) &&& EVENT_THR_CTL_MASK)
              <<< MMCRA_THR_CTL_SHIFT)
        ||| (((e >>> EVENT_THR_SEL_SHIFT) &&& EVENT_THR_SEL_MASK)
              <<< MMCRA_THR_SEL_SHIFT)
        ||| (((e >>> EVENT_THR_CMP_SHIFT) &&& EVENT_THR_CMP_MASK)
              <<< MMCRA_THR_CMP_SHIFT) := by
  simp only [mmcrStep]
  rw [if_neg (by rw [hf]; exact Bool.false_ne_true)]

lemma compute_single_mmcra (e : Nat) :
    (power8_compute_mmcr [e]).mmcra
      = (mmcrStep
          { pmc_inuse := mmcrPass1 [e], mmcr1 := 0,
            mmcra := MMCRA_SDAR_MODE_TLB, hwc := [] } e).mmcra := rfl

lemma compute_single_mmcr1 (e : Nat) :
    (power8_compute_mmcr [e]).mmcr1
      = (mmcrStep
          { pmc_inuse := mmcrPass1 [e], mmcr1 := 0,
            mmcra := MMCRA_SDAR_MODE_TLB, hwc := [] } e).mmcr1 := rfl

/-- C2 (amended): an event is treated as a fabric-match event iff the event
restricted to its pmc, unit and non-edge selector bits (mask 0xff0fe, not
merely the edge bit masked off) equals 0x30056 or 0x4f052; for such events
the constraint generator contributes the fabric-match constraint and no
threshold constraint (and conversely for all other events), and for a
one-event group the register synthesizer keeps every threshold field of the
threshold/sampling word clear and ORs the threshold-control byte into the
auxiliary word, while a non-fabric-match event has its threshold-control
byte packed into the threshold/sampling word. -/
theorem C2_fab_match (e : Nat) :
    (event_is_fab_match e = true ↔
      (e &&& 0xff0fe = 0x30056 ∨ e &&& 0xff0fe = 0x4f052)) ∧
    (∀ m v : Nat, power8_get_constraint e = some (m, v) →
      (event_is_fab_match e = true →
        m &&& CNST_FAB_MATCH_MASK = CNST_FAB_MATCH_MASK ∧
        m &&& CNST_THRESH_MASK = 0) ∧
      (event_is_fab_match e = false →
        m &&& CNST_THRESH_MASK = CNST_THRESH_MASK ∧
        m &&& CNST_FAB_MATCH_MASK = 0)) ∧
    (event_is_fab_match e = true →
      (power8_compute_mmcr [e]).mmcra &&& 0x3ff0007ff00 = 0 ∧
      (power8_compute_mmcr [e]).mmcr1
          ||| ((e >>> EVENT_THR_CTL_SHIFT) &&& EVENT_THR_CTL_MASK)
        = (power8_compute_mmcr [e]).mmcr1) ∧
    (event_is_fab_match e = false →
      (power8_compute_mmcr [e]).mmcra &&& (0xff <<< MMCRA_THR_CTL_SHIFT)
        = ((e >>> EVENT_THR_CTL_SHIFT) &&& EVENT_THR_CTL_MASK)
            <<< MMCRA_THR_CTL_SHIFT) := by
  refine ⟨?_, ?_, ?_, ?_⟩
  · unfold event_is_fab_match
    simp [Bool.or_eq_true, beq_iff_eq]
  · intro m v hmv
    obtain ⟨hp, _, _, hcase⟩ := getConstraint_some hmv
    have hbase_fab : cnstBaseMask e &&& CNST_FAB_MATCH_MASK = 0 := by
      have hFM : CNST_FAB_MATCH_MASK = 0xff <<< 56 := by decide
      rw [hFM]
      exact and_shl_of_le _ _ (by norm_num : (24 : Nat) ≤ 56) (cnstBaseMask_lt e hp)
    have hbase_thr : cnstBaseMask e &&& CNST_THRESH_MASK = 0 := by
      have hTM : CNST_THRESH_MASK = 0x1fffff <<< 32 := by decide
      rw [hTM]
      exact and_shl_of_le _ _ (by norm_num : (24 : Nat) ≤ 32) (cnstBaseMask_lt e hp)
    constructor
    · intro hfT
      rcases hcase with ⟨_, hm, _⟩ | ⟨hfF, _, _, _⟩
      · rw [hm, Nat.and_distrib_right, Nat.and_distrib_right]
        refine ⟨?_, ?_⟩
        · rw [hbase_fab, Nat.and_self]
          simp
        · rw [hbase_thr]
          have h3 : CNST_FAB_MATCH_MASK &&& CNST_THRESH_MASK = 0 := by decide
          rw [h3]
          simp
      · rw [hfT] at hfF
        exact absurd hfF (by decide)
    · intro hfF
      rcases hcase with ⟨hfT, _, _⟩ | ⟨_, _, hm, _⟩
      · rw [hfF] at hfT
        exact absurd hfT (by decide)
      · rw [hm, Nat.and_distrib_right, Nat.and_distrib_right]
        refine ⟨?_, ?_⟩
        · rw [hbase_thr, Nat.and_self]
          simp
        · rw [hbase_fab]
          have h3 : CNST_THRESH_MASK &&& CNST_FAB_MATCH_MASK = 0 := by decide
          rw [h3]
          simp
  · intro hfT
    constructor
    · rw [compute_single_mmcra, mmcrStep_fab_mmcra _ e hfT]
      have hred :
          ({ pmc_inuse := mmcrPass1 [e], mmcr1 := 0,
             mmcra := MMCRA_SDAR_MODE_TLB, hwc := [] } : MMCRState).mmcra
            = MMCRA_SDAR_MODE_TLB := rfl
      rw [hred]
      have hval := evField_sample_lt e
      split_ifs with h1 h2
      · refine or_and_zero _ _ _ (or_and_zero _ _ _ ?_ ?_) ?_
        · exact or_and_zero _ _ _ (by decide) (by decide)
        · exact low8_and_thrfields _ (samp_mode_lt _)
        · exact low8_and_thrfields _ (samp_elig_lt _ hval)
      · exact or_and_zero _ _ _ (by decide) (by decide)
      · decide
    · rw [compute_single_mmcr1]
      obtain ⟨x, hx⟩ :=
        mmcrStep_fab_mmcr1
          { pmc_inuse := mmcrPass1 [e], mmcr1 := 0,
            mmcra := MMCRA_SDAR_MODE_TLB, hwc := [] } e hfT
      rw [hx, Nat.or_assoc, Nat.or_self]
  · intro hfF
    rw [compute_single_mmcra, mmcrStep_nonfab_mmcra _ e hfF]
    have hred :
        ({ pmc_inuse := mmcrPass1 [e], mmcr1 := 0,
           mmcra := MMCRA_SDAR_MODE_TLB, hwc := [] } : MMCRState).mmcra
          = MMCRA_SDAR_MODE_TLB := rfl
    rw [hred]
    rw [Nat.and_distrib_right, Nat.and_distrib_right, Nat.and_distrib_right]
    have hval := evField_sample_lt e
    have p1 : (if e &&& EVENT_IS_MARKED ≠ 0 then
        (if evField e EVENT_SAMPLE_SHIFT EVENT_SAMPLE_MASK ≠ 0 then
          MMCRA_SDAR_MODE_TLB ||| MMCRA_SAMPLE_ENABLE
            ||| ((evField e EVENT_SAMPLE_SHIFT EVENT_SAMPLE_MASK &&& 3)
                  <<< MMCRA_SAMP_MODE_SHIFT)
            ||| ((evField e EVENT_SAMPLE_SHIFT EVENT_SAMPLE_MASK >>> 2)
                  <<< MMCRA_SAMP_ELIG_SHIFT)
         else MMCRA_SDAR_MODE_TLB ||| MMCRA_SAMPLE_ENABLE)
       else MMCRA_SDAR_MODE_TLB) &&& (0xff <<< MMCRA_THR_CTL_SHIFT) = 0 := by
      split_ifs with h1 h2
      · refine or_and_zero _ _ _ (or_and_zero _ _ _ ?_ ?_) ?_
        · exact or_and_zero _ _ _ (by decide) (by decide)
        · exact low8_and_ctlfield _ (samp_mode_lt _)
        · exact low8_and_ctlfield _ (samp_elig_lt _ hval)
      · exact or_and_zero _ _ _ (by decide) (by decide)
      · decide
    have p2 : (((e >>> EVENT_THR_CTL_SHIFT) &&& EVENT_THR_CTL_MASK)
          <<< MMCRA_THR_CTL_SHIFT) &&& (0xff <<< MMCRA_THR_CTL_SHIFT)
        = ((e >>> EVENT_THR_CTL_SHIFT) &&& EVENT_THR_CTL_MASK)
            <<< MMCRA_THR_CTL_SHIFT := by
      rw [shl_and_shl, Nat.and_assoc]
      have h4 : EVENT_THR_CTL_MASK &&& 0xff = EVENT_THR_CTL_MASK := by decide
      rw [h4]
    have p3 : (((e >>> EVENT_THR_SEL_SHIFT) &&& EVENT_THR_SEL_MASK)
          <<< MMCRA_THR_SEL_SHIFT) &&& (0xff <<< MMCRA_THR_CTL_SHIFT) = 0 := by
      exact shl_and_of_le _ _ (by decide : (16 : Nat) ≤ MMCRA_THR_SEL_SHIFT)
        (by decide)
    have p4 : (((e >>> EVENT_THR_CMP_SHIFT) &&& EVENT_THR_CMP_MASK)
          <<< MMCRA_THR_CMP_SHIFT) &&& (0xff <<< MMCRA_THR_CTL_SHIFT) = 0 := by
      exact shl_and_of_le _ _ (by decide : (16 : Nat) ≤ MMCRA_THR_CMP_SHIFT)
        (by decide)
    rw [p1, p2, p3, p4]
    simp

/-- Witness for C2 at the fabric-match event 0x30056: the threshold fields of
the threshold/sampling word stay clear. -/
theorem C2_witness :
    (power8_compute_mmcr [0x30056]).mmcra &&& 0x3ff0007ff00 = 0 :=
  ((C2_fab_match 0x30056).2.2.1 (by decide)).1
